import Mathlib

/-!
Verification development for the benthos JavaScript processor/output plugin
(package `javascript`: `vm.go`, the processor and output stage constructors,
and the VM logger). The Go source is shallowly embedded: goja script values
become an inductive type, the host-function bodies become pure functions that
also report their external effects (cache accesses, channel sends, log lines),
and the output stage's dispatch loop becomes an explicit trace-producing
function.
-/

namespace BenthosJS

/-- goja script-level values as seen at the host boundary. `undef` is the
engine's undefined sentinel; floats are carried as the value they were coerced
from, since no claim depends on IEEE arithmetic. -/
inductive GojaValue where
  | undef
  | vnull
  | vstr (s : String)
  | vint (n : Int)
  | vbool (b : Bool)
  | vobj (fields : List (String × GojaValue))
  | varr (elems : List GojaValue)

/-- `goja.IsUndefined(arg)`. -/
def GojaValue.isUndef : GojaValue → Bool
  | .undef => true
  | _ => false

/-- goja `Value.String()` — total ECMAScript ToString coercion supplied by the
engine (external library): it converts every value, never erring, which is why
the `*string` branch of `parseArgs` has no error path. -/
def gojaString : GojaValue → String
  | .undef => "undefined"
  | .vnull => "null"
  | .vstr s => s
  | .vint n => toString n
  | .vbool b => if b then "true" else "false"
  | .vobj _ => "[object Object]"
  | .varr _ => "[object Array]"

/-- Decimal digit-string value, used to model the engine's string-to-number
coercion. -/
def decValAux : List Char → Nat → Option Nat
  | [], acc => some acc
  | c :: rest, acc =>
      if '0' ≤ c ∧ c ≤ '9' then
        decValAux rest (acc * 10 + (c.toNat - '0'.toNat))
      else none

/-- Decimal reading of a string for the ToInteger coercion: an optional minus
sign followed by digits; anything else reads as NaN, which ToInteger maps
to 0. -/
def gojaStrToInt (s : String) : Int :=
  match s.data with
  | [] => 0
  | '-' :: rest => - (Int.ofNat ((decValAux rest 0).getD 0))
  | l => Int.ofNat ((decValAux l 0).getD 0)

/-- goja `Value.ToInteger()` — total ECMAScript ToInteger coercion (external
library): numeric strings parse, booleans map to 0/1, everything else to 0. -/
def gojaToInteger : GojaValue → Int
  | .undef => 0
  | .vnull => 0
  | .vstr s => gojaStrToInt s
  | .vint n => n
  | .vbool b => if b then 1 else 0
  | .vobj _ => 0
  | .varr _ => 0

/-- goja `Value.ToBoolean()` — total ECMAScript ToBoolean coercion (external
library). -/
def gojaToBoolean : GojaValue → Bool
  | .undef => false
  | .vnull => false
  | .vstr s => s ≠ ""
  | .vint n => n ≠ 0
  | .vbool b => b
  | .vobj _ => true
  | .varr _ => true

/-- Host-side destination slots of `parseArgs`, each holding its current
(pre-initialized) value: the Go code passes pointers to locals (`*string`,
`*int`, `*int64`, `*float64`, `*bool`, `*map[string]interface\x7b\x7d`,
`*[]interface\x7b\x7d`, `*[]map[string]interface\x7b\x7d`, `*goja.Value`,
`*interface\x7b\x7d`). A float slot keeps the goja value the `ToFloat`
coercion was applied to, abstracting the IEEE result. -/
inductive HostVal where
  | hstr (s : String)
  | hint (n : Int)
  | hint64 (n : Int)
  | hfloat (v : GojaValue)
  | hbool (b : Bool)
  | hmap (m : List (String × GojaValue))
  | hslice (xs : List GojaValue)
  | hmapslice (xs : List (List (String × GojaValue)))
  | hgoja (v : GojaValue)
  | hany (v : GojaValue)

/-- Modelled from the spec: `getMapFromValue` (referenced by `parseArgs` but
defined in a repository file outside src/) converts a script value into a
map of string to any, failing on any other shape ("a supplied value cannot be
converted into its corresponding destination's declared shape"). -/
def getMapFromValue : GojaValue → Except String (List (String × GojaValue))
  | .vobj m => .ok m
  | _ => .error "unsupported type"

/-- Modelled from the spec: `getSliceFromValue` converts a script value into a
slice of any, failing on any other shape. -/
def getSliceFromValue : GojaValue → Except String (List GojaValue)
  | .varr xs => .ok xs
  | _ => .error "unsupported type"

/-- Modelled from the spec: `getMapSliceFromValue` converts a script value into
a slice of maps, failing unless the value is an array of objects. -/
def getMapSliceFromValue (v : GojaValue) :
    Except String (List (List (String × GojaValue))) :=
  match v with
  | .varr xs => go xs
  | _ => .error "unsupported type"
where
  go : List GojaValue → Except String (List (List (String × GojaValue)))
    | [] => .ok []
    | .vobj m :: rest => do
        let tail ← go rest
        .ok (m :: tail)
    | _ :: _ => .error "unsupported type"

/-- One iteration of the `switch p := ptr.(type)` in `parseArgs`: assign the
argument into the destination slot. Primitive slots use the engine's total
coercions (`arg.String()`, `arg.ToInteger()`, `arg.ToFloat()`,
`arg.ToBoolean()`) and set no error; structured slots use the shape-checked
converters; `*goja.Value` and `*interface\x7b\x7d` take the value as is. -/
def assignArg (arg : GojaValue) (dest : HostVal) : Except String HostVal :=
  match dest with
  | .hstr _ => .ok (.hstr (gojaString arg))
  | .hint _ => .ok (.hint (gojaToInteger arg))
  | .hint64 _ => .ok (.hint64 (gojaToInteger arg))
  | .hfloat _ => .ok (.hfloat arg)
  | .hbool _ => .ok (.hbool (gojaToBoolean arg))
  | .hmap _ => (getMapFromValue arg).map .hmap
  | .hslice _ => (getSliceFromValue arg).map .hslice
  | .hmapslice _ => (getMapSliceFromValue arg).map .hmapslice
  | .hgoja _ => .ok (.hgoja arg)
  | .hany _ => .ok (.hany arg)

/-- The `for i := 0; i < len(call.Arguments); i++` loop of `parseArgs`: each
supplied argument is first checked against the undefined sentinel, then
assigned; destinations beyond the supplied arguments are returned untouched. -/
def parseArgsLoop : List GojaValue → List HostVal → Except String (List HostVal)
  | [], ptrs => .ok ptrs
  | a :: rest, p :: ps =>
      if a.isUndef then .error "argument is undefined"
      else
        match assignArg a p with
        | .error e => .error ("could not parse: " ++ e)
        | .ok p' =>
            match parseArgsLoop rest ps with
            | .error e => .error e
            | .ok ps' => .ok (p' :: ps')
  | _ :: _, [] => .error "too many arguments"

/-- `parseArgs(call, ptrs...)`: fails up front when the call supplies more
arguments than destination pointers, then runs the per-argument loop. -/
def parseArgs (args : List GojaValue) (ptrs : List HostVal) :
    Except String (List HostVal) :=
  if ptrs.length < args.length then
    .error "have more arguments than pointers to parse into"
  else parseArgsLoop args ptrs

/-! ## The message part and its metadata accessors -/

/-- Modelled from the spec: the host pipeline's `message.Part` (external to
src/, specified in section 6 as "mutable metadata mapping accessors,
structured-payload get/set"): a structured payload plus a string-keyed
metadata mapping. Values stored through `setMeta` are strings, so metadata is
carried as an association list of strings (latest binding first). -/
structure MessagePart where
  payload : GojaValue
  meta : List (String × String)

/-- Modelled from the spec: `Part.MetaGetMut` — metadata mapping lookup. -/
def metaGetMut (msg : MessagePart) (key : String) : Option String :=
  msg.meta.lookup key

/-- Modelled from the spec: `Part.MetaDelete` — removes every binding of the
key from the metadata mapping. -/
def metaDelete (msg : MessagePart) (key : String) : MessagePart :=
  { msg with meta := msg.meta.filter (fun p => p.1 ≠ key) }

/-- Modelled from the spec: `Part.MetaSetMut` — sets the key to the value in
the metadata mapping (keys unique, so the previous binding is replaced). -/
def metaSetMut (msg : MessagePart) (key value : String) : MessagePart :=
  { msg with meta := (key, value) :: (metaDelete msg key).meta }

/-- Modelled from the spec: `Part.SetStructured` — replaces the structured
payload. -/
def setStructured (msg : MessagePart) (v : GojaValue) : MessagePart :=
  { msg with payload := v }

/-- Modelled from the spec: `Part.AsStructuredMut` — returns the structured
payload as a value the caller may mutate freely; per the source doc comment on
`getRoot` ("It is safe to mutate the contents of the returned value. To mutate
the message root, use setRoot") the returned value is detached from the
message, so the embedding returns a copy of the payload. -/
def asStructuredMut (msg : MessagePart) : GojaValue :=
  msg.payload

/-! ## The setFunction bridge wrapper -/

/-- What one host-function invocation produces at the script boundary: either
a returned value or a script-level exception. The bridge itself only ever
produces `ret`. -/
inductive ScriptEffect where
  | ret (v : GojaValue)
  | exn (e : String)

/-- Outcome of one bridged call: the effect visible to the script plus the
error lines logged by the wrapper. -/
structure CallOutcome where
  effect : ScriptEffect
  logged : List String

/-- The closure installed by `setFunction`: runs the host-function body; on
error it logs the error message and hands `goja.Null()` back to the script,
on success it hands the converted result back. It never throws into the
script and never aborts the surrounding program run. -/
def setFunctionOutcome (bodyResult : Except String GojaValue) : CallOutcome :=
  match bodyResult with
  | .error e => { effect := .ret .vnull, logged := [e] }
  | .ok v => { effect := .ret v, logged := [] }

/-! ## Host-function bodies (vm.go) -/

/-- `getMeta` body: parse one string argument, look the key up in the message
metadata; a missing key is the error "not found". `query.IToString` applied to
a string metadata value is that string. -/
def getMetaBody (msg : MessagePart) (args : List GojaValue) :
    Except String GojaValue :=
  match parseArgs args [.hstr ""] with
  | .error e => .error e
  | .ok [.hstr name] =>
      match metaGetMut msg name with
      | some v => .ok (.vstr v)
      | none => .error "not found"
  | .ok _ => .error "unreachable"

/-- `setMeta` body: parse two string arguments; an empty value deletes the
key, a non-empty value sets it. Returns the new message state alongside the
script result. -/
def setMetaBody (msg : MessagePart) (args : List GojaValue) :
    Except String GojaValue × MessagePart :=
  match parseArgs args [.hstr "", .hstr ""] with
  | .error e => (.error e, msg)
  | .ok [.hstr name, .hstr value] =>
      if value = "" then (.ok .vnull, metaDelete msg name)
      else (.ok .vnull, metaSetMut msg name value)
  | .ok _ => (.error "unreachable", msg)

/-- `setRoot` body: parse one argument of any shape into an
`interface\x7b\x7d` destination and replace the structured payload with it. -/
def setRootBody (msg : MessagePart) (args : List GojaValue) :
    Except String GojaValue × MessagePart :=
  match parseArgs args [.hany .vnull] with
  | .error e => (.error e, msg)
  | .ok [.hany value] => (.ok .vnull, setStructured msg value)
  | .ok _ => (.error "unreachable", msg)

/-- `getRoot` body: returns the structured payload view; the call's arguments
are ignored. -/
def getRootBody (msg : MessagePart) : Except String GojaValue :=
  .ok (asStructuredMut msg)

/-! ## Cache access -/

/-- One access actually issued to a cache backend through
`mgr.AccessCache`. -/
inductive CacheAccess where
  | get (res key : String)
  | set (res key value : String)

/-- The external cache backends reachable through the manager: the combined
result of `AccessCache` plus the inner `cache.Get` / `cache.Set` call for a
given resource name and key (an `AccessCache` failure and a backend failure
land in the same `err` variable in the source). -/
structure CacheEnv where
  getRes : String → String → Except String String
  setRes : String → String → String → Option String

/-- The membership loop shared by `getCacheRes` and `setCacheRes`:
`isOK := false; for _, c := range caches \x7b if c == name \x7b isOK = true
\x7d \x7d`. -/
def cacheListed (caches : List String) (name : String) : Bool :=
  caches.foldl (fun isOK c => if c = name then true else isOK) false

/-- `getCacheRes` body: parse resource name and key, require the name to be in
the configured `cache_res` list ("not cache res" otherwise, with no backend
access), then read from the backend; any access or backend error surfaces as
"not found". The second component records the backend accesses performed. -/
def getCacheResBody (caches : List String) (env : CacheEnv)
    (args : List GojaValue) : Except String GojaValue × List CacheAccess :=
  match parseArgs args [.hstr "", .hstr ""] with
  | .error e => (.error e, [])
  | .ok [.hstr cacheName, .hstr key] =>
      if cacheListed caches cacheName then
        match env.getRes cacheName key with
        | .ok v => (.ok (.vstr v), [.get cacheName key])
        | .error _ => (.error "not found", [.get cacheName key])
      else (.error "not cache res", [])
  | .ok _ => (.error "unreachable", [])

/-- `setCacheRes` body: parse resource name, key and value, require the name
to be in the configured `cache_res` list ("not cache res" otherwise, with no
backend access), then write to the backend with no TTL; any access or backend
error surfaces as "not set". -/
def setCacheResBody (caches : List String) (env : CacheEnv)
    (args : List GojaValue) : Except String GojaValue × List CacheAccess :=
  match parseArgs args [.hstr "", .hstr "", .hstr ""] with
  | .error e => (.error e, [])
  | .ok [.hstr cacheName, .hstr key, .hstr value] =>
      if cacheListed caches cacheName then
        match env.setRes cacheName key value with
        | none => (.ok .vnull, [.set cacheName key value])
        | some _ => (.error "not set", [.set cacheName key value])
      else (.error "not cache res", [])
  | .ok _ => (.error "unreachable", [])

/-! ## benthos_output -/

/-- A transaction as built by `benthos_output`:
`message.NewTransaction(message.QuickBatch([][]byte\x7b[]byte(value)\x7d),
nil)` — a batch of message payloads plus an optional acknowledgement
callback. -/
structure Transaction where
  batch : List String
  ack : Option Unit

/-- The sink-lookup loop of `benthos_output`: `idx := -1; for i := range
outputs \x7b if resName == outputs[i] \x7b idx = i \x7d \x7d` — the last
matching index wins. -/
def findLastIdx (outputs : List String) (resName : String) : Option Nat :=
  go outputs 0 none
where
  go : List String → Nat → Option Nat → Option Nat
    | [], _, acc => acc
    | o :: rest, i, acc =>
        go rest (i + 1) (if resName = o then some i else acc)

/-- The output stage handle `j` as `benthos_output` sees it: the configured
`output_res` names (each index also naming its transaction channel). -/
structure OutputStageHandle where
  outputs : List String

/-- Whether the channel at an index can accept a send before the fixed
1-second `time.After` fires; the real-time race of the `select` is abstracted
into this oracle. -/
structure SendEnv where
  accepts : Nat → Bool

/-- `benthos_output` body: fails with "run in processor" when no output stage
handle exists (processor variant); otherwise parses sink name and value,
resolves the name against `output_res` ("not output res" on a miss, with no
channel interaction), then sends one single-message-batch transaction with a
nil acknowledgement on that sink's channel, or fails with "output timeout"
when the channel cannot accept it in time. The second component records the
channel sends performed. -/
def benthosOutputBody (j : Option OutputStageHandle) (env : SendEnv)
    (args : List GojaValue) :
    Except String GojaValue × List (Nat × Transaction) :=
  match j with
  | none => (.error "run in processor", [])
  | some stage =>
      match parseArgs args [.hstr "", .hstr ""] with
      | .error e => (.error e, [])
      | .ok [.hstr resName, .hstr value] =>
          match findLastIdx stage.outputs resName with
          | none => (.error "not output res", [])
          | some i =>
              if env.accepts i then
                (.ok .vnull, [(i, { batch := [value], ack := none })])
              else (.error "output timeout", [])
      | .ok _ => (.error "unreachable", [])

/-! ## Stage construction -/

/-- The `code`/`file`/`cache_res`/`output_res` configuration fields consumed
by both constructors (`output.JavaScriptConfig` / `processor.JavaScriptConfig`;
`registry_global_folders` plays no part in the claims). -/
structure JSConfig where
  code : String
  file : String
  cacheRes : List String
  outputRes : List String

/-- Construction failures, tagged by the source error site: the two
configuration checks, `os.ReadFile`, `goja.Compile`, and (output variant)
creating or attaching a configured output resource. -/
inductive ConstructError where
  | bothSpecified
  | neitherSpecified
  | fileError (e : String)
  | compileError (e : String)
  | outputError (e : String)

/-- The external collaborators the constructors call: `os.ReadFile`,
`goja.Compile`, `mgr.NewOutput`, and `Streamed.Consume` for each configured
output resource name. -/
structure ConstructEnv where
  readFile : String → Except String String
  compile : String → String → Except String Unit
  newOutput : String → Option String
  consume : String → Option String

/-- A compiled program: filename used for diagnostics plus the source text
compiled. -/
structure Program where
  filename : String
  code : String

/-- Shared tail of both constructors: pick `filename := "main.js"` unless a
file is configured (then read it and use its path), and compile. -/
def compileStage (env : ConstructEnv) (code file : String) :
    Except ConstructError Program :=
  if file ≠ "" then
    match env.readFile file with
    | .error e => .error (.fileError e)
    | .ok codeBytes =>
        match env.compile file codeBytes with
        | .error e => .error (.compileError e)
        | .ok _ => .ok { filename := file, code := codeBytes }
  else
    match env.compile "main.js" code with
    | .error e => .error (.compileError e)
    | .ok _ => .ok { filename := "main.js", code := code }

/-- `newJavaScript` (processor variant): reject both/neither of `code` and
`file`, then read and compile. -/
def newJavaScript (conf : JSConfig) (env : ConstructEnv) :
    Except ConstructError Program :=
  if conf.code ≠ "" ∧ conf.file ≠ "" then .error .bothSpecified
  else if conf.code = "" ∧ conf.file = "" then .error .neitherSpecified
  else compileStage env conf.code conf.file

/-- The `for i := range outputStreams` loop of `newJavaScriptWriter`: create
every configured output resource, propagating the first failure, then attach
a fresh transaction channel to each via `Consume`. -/
def buildOutputs (env : ConstructEnv) : List String → Option String
  | [] => none
  | r :: rest =>
      match env.newOutput r with
      | some e => some e
      | none => buildOutputs env rest

/-- The `for i := range outputTSChans` loop of `newJavaScriptWriter`. -/
def consumeOutputs (env : ConstructEnv) : List String → Option String
  | [] => none
  | r :: rest =>
      match env.consume r with
      | some e => some e
      | none => consumeOutputs env rest

/-- `newJavaScriptWriter` (output variant): reject both/neither of `code` and
`file`, create and attach every configured output resource, then read and
compile. -/
def newJavaScriptWriter (conf : JSConfig) (env : ConstructEnv) :
    Except ConstructError Program :=
  if conf.code ≠ "" ∧ conf.file ≠ "" then .error .bothSpecified
  else if conf.code = "" ∧ conf.file = "" then .error .neitherSpecified
  else
    match buildOutputs env conf.outputRes with
    | some e => .error (.outputError e)
    | none =>
        match consumeOutputs env conf.outputRes with
        | some e => .error (.outputError e)
        | none => compileStage env conf.code conf.file

/-! ## The output stage dispatch loop and its shutdown sequence -/

/-- Events the running dispatch loop can observe: a transaction arriving on
the upstream channel, the upstream channel closing, or the hard close-now
signal. -/
inductive LoopInput where
  | txnArrive (t : Transaction)
  | chanClosed
  | closeNow

/-- The main `for !j.shutSig.ShouldCloseNow()` loop of `javascriptOutput.loop`:
each arriving upstream transaction is received into `_` and discarded; the
loop returns on upstream closure or close-now. The result is the
acknowledgement-pending counter after the loop together with the transactions
the loop forwarded to any sink (the body contains no send, so none). -/
def mainLoop : List LoopInput → Int → Int × List Transaction
  | [], ackPending => (ackPending, [])
  | .txnArrive _ :: rest, ackPending => mainLoop rest ackPending
  | .chanClosed :: _, ackPending => (ackPending, [])
  | .closeNow :: _, ackPending => (ackPending, [])

/-- The `ackWaitLoop` in the deferred shutdown block: the wait completes when
the pending counter is zero (loop guard) or the close-now channel fires
(`break ackWaitLoop`); with a positive counter and no close-now it keeps
polling forever (`none`). -/
def drainWait (ackPending : Int) (closeNow : Bool) : Option Unit :=
  if ackPending ≤ 0 then some ()
  else if closeNow then some ()
  else none

/-- Steps of the deferred shutdown block, in the order the code performs
them. -/
inductive ShutEvent where
  | ackWaitDone
  | chanClose (i : Nat)
  | triggerCloseNow (i : Nat)
  | waitForClose (i : Nat)
  | shutdownComplete

/-- The deferred shutdown block of `javascriptOutput.loop`, as the trace of
steps it performs over `n` owned sinks: finish the acknowledgement-drain wait,
close every per-sink transaction channel, force-close every owned sink, await
every sink's close confirmation, and finally mark the shutdown signal
complete. `none` when the drain wait never completes. -/
def shutdownSeq (n : Nat) (ackPending : Int) (closeNow : Bool) :
    Option (List ShutEvent) :=
  match drainWait ackPending closeNow with
  | none => none
  | some _ =>
      some ((([ShutEvent.ackWaitDone]
        ++ (List.range n).map ShutEvent.chanClose)
        ++ (List.range n).map ShutEvent.triggerCloseNow)
        ++ (List.range n).map ShutEvent.waitForClose
        ++ [ShutEvent.shutdownComplete])

/-- Phase number of a shutdown step: the program text performs all steps of a
lower phase before any step of a higher phase. -/
def ShutEvent.phase : ShutEvent → Nat
  | .ackWaitDone => 0
  | .chanClose _ => 1
  | .triggerCloseNow _ => 2
  | .waitForClose _ => 3
  | .shutdownComplete => 4

/-! ## Helper lemmas -/

theorem parseArgsLoop_not_ok_of_mem_undef {args : List GojaValue}
    (h : GojaValue.undef ∈ args) :
    ∀ ptrs res, parseArgsLoop args ptrs ≠ .ok res := by
  induction args with
  | nil => cases h
  | cons a rest ih =>
    intro ptrs res
    cases ptrs with
    | nil => simp [parseArgsLoop]
    | cons p ps =>
      rcases List.mem_cons.mp h with h1 | h2
      · subst h1
        simp [parseArgsLoop, GojaValue.isUndef]
      · simp only [parseArgsLoop]
        by_cases hu : a.isUndef
        · simp [hu]
        · simp only [hu, if_neg, Bool.false_eq_true, not_false_eq_true, if_false]
          cases hassign : assignArg a p with
          | error e => simp
          | ok p' =>
            cases hloop : parseArgsLoop rest ps with
            | error e => simp
            | ok ps' => exact absurd hloop (by intro hc; exact ih h2 ps ps' hc)

theorem parseArgsLoop_ok_suffix {args : List GojaValue} :
    ∀ {ptrs res : List HostVal}, parseArgsLoop args ptrs = .ok res →
      res.length = ptrs.length ∧ res.drop args.length = ptrs.drop args.length := by
  induction args with
  | nil =>
    intro ptrs res h
    simp only [parseArgsLoop] at h
    cases h
    simp
  | cons a rest ih =>
    intro ptrs res h
    cases ptrs with
    | nil => simp [parseArgsLoop] at h
    | cons p ps =>
      simp only [parseArgsLoop] at h
      by_cases hu : a.isUndef
      · simp [hu] at h
      · simp only [hu, Bool.false_eq_true, if_false] at h
        cases hassign : assignArg a p with
        | error e => simp [hassign] at h
        | ok p' =>
          simp only [hassign] at h
          cases hloop : parseArgsLoop rest ps with
          | error e => simp [hloop] at h
          | ok ps' =>
            simp only [hloop] at h
            cases h
            have := ih hloop
            simp [this.1, this.2]

theorem cacheListed_foldl (caches : List String) (name : String) (b : Bool) :
    caches.foldl (fun isOK c => if c = name then true else isOK) b =
      (b || decide (name ∈ caches)) := by
  induction caches generalizing b with
  | nil => simp
  | cons c rest ih =>
    simp only [List.foldl_cons, ih, List.mem_cons]
    by_cases hc : c = name
    · subst hc
      simp
    · have : ¬ name = c := fun h => hc h.symm
      simp [hc, this]

theorem cacheListed_eq_false_of_not_mem {caches : List String} {name : String}
    (h : name ∉ caches) : cacheListed caches name = false := by
  unfold cacheListed
  rw [cacheListed_foldl]
  simp [h]

theorem lookup_metaDelete (msg : MessagePart) (k : String) :
    metaGetMut (metaDelete msg k) k = none := by
  unfold metaGetMut metaDelete
  simp only
  induction msg.meta with
  | nil => rfl
  | cons p rest ih =>
    obtain ⟨a, b⟩ := p
    by_cases hp : a = k
    · simpa [List.filter_cons, hp] using ih
    · have hk : (k == a) = false := by
        rw [beq_eq_false_iff_ne]
        exact fun h => hp h.symm
      rw [List.filter_cons, if_pos (by simpa using hp)]
      simpa [List.lookup, hk] using ih

theorem lookup_metaSetMut (msg : MessagePart) (k v : String) :
    metaGetMut (metaSetMut msg k v) k = some v := by
  unfold metaGetMut metaSetMut
  simp [List.lookup]

theorem findLastIdx_go_eq_acc {name : String} :
    ∀ (xs : List String) (i : Nat) (acc : Option Nat), name ∉ xs →
      findLastIdx.go name xs i acc = acc := by
  intro xs
  induction xs with
  | nil => intro i acc _; rfl
  | cons o rest ih =>
    intro i acc h
    have h1 : name ≠ o := fun hc => h (by simp [hc])
    have h2 : name ∉ rest := fun hc => h (List.mem_cons_of_mem _ hc)
    simp only [findLastIdx.go, h1, if_false]
    exact ih _ _ h2

theorem findLastIdx_none_of_not_mem {outputs : List String} {name : String}
    (h : name ∉ outputs) : findLastIdx outputs name = none :=
  findLastIdx_go_eq_acc outputs 0 none h

theorem findLastIdx_go_some {name : String} :
    ∀ (xs : List String) (i : Nat) (acc : Option Nat) (j : Nat),
      findLastIdx.go name xs i acc = some j →
      acc = some j ∨ ∃ k, xs.get? k = some name ∧ j = i + k := by
  intro xs
  induction xs with
  | nil => intro i acc j h; exact .inl h
  | cons o rest ih =>
    intro i acc j h
    simp only [findLastIdx.go] at h
    rcases ih _ _ _ h with hacc | ⟨k, hk, hj⟩
    · by_cases ho : name = o
      · simp only [ho, if_true] at hacc
        cases hacc
        exact .inr ⟨0, by simp [ho], by simp⟩
      · simp only [ho, if_false] at hacc
        exact .inl hacc
    · exact .inr ⟨k + 1, by simpa using hk, by omega⟩

theorem findLastIdx_get {outputs : List String} {name : String} {i : Nat}
    (h : findLastIdx outputs name = some i) : outputs.get? i = some name := by
  rcases findLastIdx_go_some outputs 0 none i h with hacc | ⟨k, hk, hj⟩
  · cases hacc
  · simpa [hj] using hk

theorem findLastIdx_go_some_of_acc_some {name : String} :
    ∀ (xs : List String) (i : Nat) (j : Nat),
      ∃ j', findLastIdx.go name xs i (some j) = some j' := by
  intro xs
  induction xs with
  | nil => intro i j; exact ⟨j, rfl⟩
  | cons o rest ih =>
    intro i j
    simp only [findLastIdx.go]
    by_cases ho : name = o
    · rw [if_pos ho]
      exact ih _ _
    · rw [if_neg ho]
      exact ih _ _

theorem findLastIdx_isSome_of_mem {outputs : List String} {name : String}
    (h : name ∈ outputs) : ∃ i, findLastIdx outputs name = some i := by
  unfold findLastIdx
  generalize hi : 0 = i0
  clear hi
  induction outputs generalizing i0 with
  | nil => cases h
  | cons o rest ih =>
    simp only [findLastIdx.go]
    by_cases ho : name = o
    · rw [if_pos ho]
      exact findLastIdx_go_some_of_acc_some rest _ _
    · rw [if_neg ho]
      have h2 : name ∈ rest := by
        rcases List.mem_cons.mp h with h1 | h2
        · exact absurd h1 ho
        · exact h2
      exact ih h2 _

/-! ## Claim theorems -/

/-- C1: every registered host function is installed through `setFunction`;
whenever its body returns an error, the bridge hands `goja.Null()` back to the
script and logs exactly that error message, and the bridge never produces a
script-level exception (so a host-function failure by itself never aborts the
message's script execution). -/
theorem c1_host_error_null_and_log
    (body : Except String GojaValue) (e : String) (h : body = .error e) :
    setFunctionOutcome body = { effect := .ret .vnull, logged := [e] } ∧
    ∀ b : Except String GojaValue, ∀ ex : String,
      (setFunctionOutcome b).effect ≠ .exn ex := by
  subst h
  refine ⟨rfl, ?_⟩
  intro b ex
  cases b <;> exact fun hc => ScriptEffect.noConfusion hc

/-- Witness for C1 at the concrete body result `.error "boom"`. -/
theorem c1_host_error_null_and_log_witness :
    setFunctionOutcome (.error "boom") =
      { effect := .ret .vnull, logged := ["boom"] } :=
  (c1_host_error_null_and_log (.error "boom") "boom" rfl).1

/-- C4: `parseArgs` fails when the call supplies more arguments than declared
destinations; it fails whenever any supplied argument is the engine's
undefined sentinel; and on success every destination beyond the supplied
argument count is returned untouched. -/
theorem c4_parseArgs_contract (args : List GojaValue) (ptrs : List HostVal) :
    (ptrs.length < args.length →
      parseArgs args ptrs =
        .error "have more arguments than pointers to parse into") ∧
    (GojaValue.undef ∈ args → ∀ res, parseArgs args ptrs ≠ .ok res) ∧
    (∀ res, parseArgs args ptrs = .ok res →
      res.length = ptrs.length ∧
      res.drop args.length = ptrs.drop args.length) := by
  refine ⟨?_, ?_, ?_⟩
  · intro h
    simp [parseArgs, h]
  · intro hmem res
    unfold parseArgs
    by_cases hlen : ptrs.length < args.length
    · simp [hlen]
    · simp only [hlen, if_false]
      exact parseArgsLoop_not_ok_of_mem_undef hmem ptrs res
  · intro res h
    unfold parseArgs at h
    by_cases hlen : ptrs.length < args.length
    · simp [hlen] at h
    · simp only [hlen, if_false] at h
      exact parseArgsLoop_ok_suffix h

/-- Witness for C4: a two-argument call into one destination fails; an
undefined argument fails; `fetch`'s pre-initialized trailing destinations
(header block, method "GET", payload) survive a one-argument call. -/
theorem c4_parseArgs_contract_witness :
    parseArgs [.vstr "u", .vstr "v"] [.hstr ""] =
      .error "have more arguments than pointers to parse into" ∧
    parseArgs [.undef] [.hstr ""] ≠ .ok [.hstr ""] ∧
    ([HostVal.hstr "http://x", .hstr "", .hstr "GET", .hstr ""].drop 1 =
      [HostVal.hstr "", .hstr "", .hstr "GET", .hstr ""].drop 1) :=
  ⟨(c4_parseArgs_contract [.vstr "u", .vstr "v"] [.hstr ""]).1 (by decide),
   (c4_parseArgs_contract [.undef] [.hstr ""]).2.1 (by simp) [.hstr ""],
   ((c4_parseArgs_contract [.vstr "http://x"]
      [.hstr "", .hstr "", .hstr "GET", .hstr ""]).2.2 _ rfl).2⟩

/-- C5 counterexample: the marshaller coerces rather than rejects — the
number 42 supplied for a string destination is stringified to "42", and the
string "7" supplied for an integer destination is parsed to 7; neither is a
marshalling failure. -/
theorem c5_counterexample_coercion :
    parseArgs [.vint 42] [.hstr ""] = .ok [.hstr "42"] ∧
    parseArgs [.vstr "7"] [.hint 0] = .ok [.hint 7] := by
  constructor <;> rfl

/-- The slice-of-maps converter rejects an array one of whose elements is not
an object. -/
theorem getMapSliceFromValue_go_error {elems : List GojaValue}
    {e : GojaValue} (he : e ∈ elems) (hne : ∀ fields, e ≠ .vobj fields) :
    getMapSliceFromValue.go elems = .error "unsupported type" := by
  induction elems with
  | nil => cases he
  | cons hd rest ih =>
    cases hd with
    | vobj m =>
        have he' : e ∈ rest := by
          rcases List.mem_cons.mp he with h1 | h2
          · exact absurd h1 (hne m)
          · exact h2
        simp only [getMapSliceFromValue.go, ih he']
        rfl
    | undef => rfl
    | vnull => rfl
    | vstr s => rfl
    | vint n => rfl
    | vbool b => rfl
    | varr xs => rfl

/-- C5 amended: for any defined supplied argument, the primitive destinations
(string, integer, 64-bit integer, float, boolean) always succeed by applying
the engine's total coercions — never rejecting a shape mismatch — and the
opaque passthrough destinations accept any defined value as is, while the
structured destinations fail with a hard marshalling error when the supplied
value does not have the required shape: a non-object for a map destination, a
non-array for a slice or slice-of-maps destination, and an array with a
non-object element for a slice-of-maps destination. -/
theorem c5_amended_marshalling (arg : GojaValue) (h : arg.isUndef = false) :
    (∀ s, parseArgs [arg] [.hstr s] = .ok [.hstr (gojaString arg)]) ∧
    (∀ n, parseArgs [arg] [.hint n] = .ok [.hint (gojaToInteger arg)]) ∧
    (∀ n, parseArgs [arg] [.hint64 n] = .ok [.hint64 (gojaToInteger arg)]) ∧
    (∀ v, parseArgs [arg] [.hfloat v] = .ok [.hfloat arg]) ∧
    (∀ b, parseArgs [arg] [.hbool b] = .ok [.hbool (gojaToBoolean arg)]) ∧
    (∀ v, parseArgs [arg] [.hgoja v] = .ok [.hgoja arg]) ∧
    (∀ v, parseArgs [arg] [.hany v] = .ok [.hany arg]) ∧
    ((∀ fields, arg ≠ .vobj fields) → ∀ m,
      parseArgs [arg] [.hmap m] =
        .error "could not parse: unsupported type") ∧
    ((∀ elems, arg ≠ .varr elems) → ∀ xs,
      parseArgs [arg] [.hslice xs] =
        .error "could not parse: unsupported type") ∧
    ((∀ elems, arg ≠ .varr elems) → ∀ xs,
      parseArgs [arg] [.hmapslice xs] =
        .error "could not parse: unsupported type") ∧
    (∀ elems, arg = .varr elems → ∀ e ∈ elems,
      (∀ fields, e ≠ .vobj fields) → ∀ xs,
        parseArgs [arg] [.hmapslice xs] =
          .error "could not parse: unsupported type") := by
  refine ⟨?_, ?_, ?_, ?_, ?_, ?_, ?_, ?_, ?_, ?_, ?_⟩
  · intro s; simp [parseArgs, parseArgsLoop, assignArg, h]
  · intro n; simp [parseArgs, parseArgsLoop, assignArg, h]
  · intro n; simp [parseArgs, parseArgsLoop, assignArg, h]
  · intro v; simp [parseArgs, parseArgsLoop, assignArg, h]
  · intro b; simp [parseArgs, parseArgsLoop, assignArg, h]
  · intro v; simp [parseArgs, parseArgsLoop, assignArg, h]
  · intro v; simp [parseArgs, parseArgsLoop, assignArg, h]
  · intro hobj m
    cases arg with
    | vobj fields => exact absurd rfl (hobj fields)
    | _ =>
        simp_all [parseArgs, parseArgsLoop, assignArg, getMapFromValue,
          Except.map]
  · intro harr xs
    cases arg with
    | varr elems => exact absurd rfl (harr elems)
    | _ =>
        simp_all [parseArgs, parseArgsLoop, assignArg, getSliceFromValue,
          Except.map]
  · intro harr xs
    cases arg with
    | varr elems => exact absurd rfl (harr elems)
    | _ =>
        simp_all [parseArgs, parseArgsLoop, assignArg, getMapSliceFromValue,
          Except.map]
  · intro elems harg e he hne xs
    subst harg
    have hgo := getMapSliceFromValue_go_error he hne
    simp [parseArgs, parseArgsLoop, assignArg, getMapSliceFromValue, hgo,
      Except.map, GojaValue.isUndef]

/-- Witness for C5 amended at concrete arguments: a number into a string
destination coerces; a boolean into a map destination, a string into a
slice-of-maps destination, and an array with a number element into a
slice-of-maps destination are marshalling errors. -/
theorem c5_amended_marshalling_witness :
    parseArgs [.vint 7] [.hstr "x"] = .ok [.hstr (gojaString (.vint 7))] ∧
    parseArgs [.vbool true] [.hmap []] =
      .error "could not parse: unsupported type" ∧
    parseArgs [.vstr "s"] [.hmapslice []] =
      .error "could not parse: unsupported type" ∧
    parseArgs [.varr [.vint 1]] [.hmapslice []] =
      .error "could not parse: unsupported type" :=
  ⟨(c5_amended_marshalling (.vint 7) rfl).1 "x",
   (c5_amended_marshalling (.vbool true) rfl).2.2.2.2.2.2.2.1
     (fun _ hc => GojaValue.noConfusion hc) [],
   (c5_amended_marshalling (.vstr "s") rfl).2.2.2.2.2.2.2.2.2.1
     (fun _ hc => GojaValue.noConfusion hc) [],
   (c5_amended_marshalling (.varr [.vint 1]) rfl).2.2.2.2.2.2.2.2.2.2
     [.vint 1] rfl (.vint 1) (List.mem_singleton.mpr rfl)
     (fun _ hc => GojaValue.noConfusion hc) []⟩

/-- Classification of a construction failure as a file-read or compile
error. -/
def ConstructError.isFileOrCompile : ConstructError → Bool
  | .fileError _ => true
  | .compileError _ => true
  | _ => false

/-- Classification of a construction failure as an output-resource
failure. -/
def ConstructError.isOutputFailure : ConstructError → Bool
  | .outputError _ => true
  | _ => false

/-- Every failure of the shared read-and-compile tail is a file-read error or
a compile error. -/
theorem compileStage_error {env : ConstructEnv} {code file : String}
    {err : ConstructError} (h : compileStage env code file = .error err) :
    err.isFileOrCompile = true := by
  unfold compileStage at h
  by_cases hf : file ≠ ""
  · rw [if_pos hf] at h
    cases hr : env.readFile file with
    | error e =>
        simp only [hr, Except.error.injEq] at h
        rw [← h]
        rfl
    | ok codeBytes =>
        simp only [hr] at h
        cases hc : env.compile file codeBytes with
        | error e =>
            simp only [hc, Except.error.injEq] at h
            rw [← h]
            rfl
        | ok _ => simp [hc] at h
  · rw [if_neg hf] at h
    cases hc : env.compile "main.js" code with
    | error e =>
        simp only [hc, Except.error.injEq] at h
        rw [← h]
        rfl
    | ok _ => simp [hc] at h

/-- Environment for the C2 counterexample: file reads and compilation always
succeed, but creating the configured output resource fails. -/
def c2FailEnv : ConstructEnv where
  readFile := fun _ => .ok ""
  compile := fun _ _ => .ok ()
  newOutput := fun _ => some "output construction failed"
  consume := fun _ => none

/-- C2 counterexample: with `code` supplied and `file` empty (exactly one
supplied), the output-variant constructor fails while creating the configured
output resource — an error that is neither a file-read nor a compile error,
refuting "when exactly one is supplied, construction proceeds to compilation
(failing only on file-read or compile error)". -/
theorem c2_counterexample_output_error :
    newJavaScriptWriter
        { code := "x", file := "", cacheRes := [], outputRes := ["a"] }
        c2FailEnv =
      .error (.outputError "output construction failed") := rfl

/-- C2 amended: both constructors fail with the dedicated configuration error
exactly when both or neither of `code`/`file` are non-empty, regardless of
content; with exactly one supplied, the processor constructor can fail only
on file read or compilation, while the output constructor can additionally
fail while creating or attaching a configured output resource (which it does
before compiling). -/
theorem c2_amended_construction (conf : JSConfig) (env : ConstructEnv) :
    (conf.code ≠ "" → conf.file ≠ "" →
      newJavaScript conf env = .error .bothSpecified ∧
      newJavaScriptWriter conf env = .error .bothSpecified) ∧
    (conf.code = "" → conf.file = "" →
      newJavaScript conf env = .error .neitherSpecified ∧
      newJavaScriptWriter conf env = .error .neitherSpecified) ∧
    ((conf.code = "" ∧ conf.file ≠ "") ∨ (conf.code ≠ "" ∧ conf.file = "") →
      ∀ err,
        (newJavaScript conf env = .error err → err.isFileOrCompile = true) ∧
        (newJavaScriptWriter conf env = .error err →
          (err.isFileOrCompile || err.isOutputFailure) = true)) := by
  refine ⟨?_, ?_, ?_⟩
  · intro hc hf
    constructor <;> simp [newJavaScript, newJavaScriptWriter, hc, hf]
  · intro hc hf
    constructor <;> simp [newJavaScript, newJavaScriptWriter, hc, hf]
  · intro hx err
    have hnb : ¬(conf.code ≠ "" ∧ conf.file ≠ "") := by
      rcases hx with ⟨h1, _⟩ | ⟨_, h2⟩
      · exact fun hb => hb.1 h1
      · exact fun hb => hb.2 h2
    have hnn : ¬(conf.code = "" ∧ conf.file = "") := by
      rcases hx with ⟨_, h2⟩ | ⟨h1, _⟩
      · exact fun hn => h2 hn.2
      · exact fun hn => h1 hn.1
    constructor
    · intro h
      unfold newJavaScript at h
      rw [if_neg hnb, if_neg hnn] at h
      exact compileStage_error h
    · intro h
      unfold newJavaScriptWriter at h
      rw [if_neg hnb, if_neg hnn] at h
      cases hb : buildOutputs env conf.outputRes with
      | some e =>
          simp only [hb, Except.error.injEq] at h
          rw [← h]
          rfl
      | none =>
          simp only [hb] at h
          cases hcs : consumeOutputs env conf.outputRes with
          | some e =>
              simp only [hcs, Except.error.injEq] at h
              rw [← h]
              rfl
          | none =>
              simp only [hcs] at h
              rw [compileStage_error h]
              rfl

/-- Witness for C2 amended at concrete configurations: both supplied fails
with "both specified"; neither supplied fails with "neither specified"; with
only `code` supplied and a failing compiler, the processor constructor's
failure is classified as a compile error. -/
theorem c2_amended_construction_witness :
    newJavaScript { code := "x", file := "y", cacheRes := [], outputRes := [] }
        c2FailEnv = .error .bothSpecified ∧
    newJavaScript { code := "", file := "", cacheRes := [], outputRes := [] }
        c2FailEnv = .error .neitherSpecified ∧
    (ConstructError.compileError "syntax").isFileOrCompile = true := by
  refine ⟨?_, ?_, ?_⟩
  · exact ((c2_amended_construction _ c2FailEnv).1 (by decide) (by decide)).1
  · exact ((c2_amended_construction _ c2FailEnv).2.1 rfl rfl).1
  · exact ((c2_amended_construction
      { code := "x", file := "", cacheRes := [], outputRes := [] }
      { c2FailEnv with compile := fun _ _ => .error "syntax" }).2.2
        (.inr ⟨by decide, rfl⟩) _).1 rfl

/-- C3: a cache resource name outside the stage's configured `cache_res` list
makes both `getCacheRes` and `setCacheRes` fail with "not cache res", with no
cache backend access performed, and the bridge hands null back to the
script. -/
theorem c3_unlisted_cache_res (caches : List String) (env : CacheEnv)
    (name key value : String) (h : name ∉ caches) :
    getCacheResBody caches env [.vstr name, .vstr key] =
      (.error "not cache res", []) ∧
    setCacheResBody caches env [.vstr name, .vstr key, .vstr value] =
      (.error "not cache res", []) ∧
    (setFunctionOutcome
      (getCacheResBody caches env [.vstr name, .vstr key]).1).effect =
      .ret .vnull ∧
    (setFunctionOutcome
      (setCacheResBody caches env
        [.vstr name, .vstr key, .vstr value]).1).effect = .ret .vnull := by
  have hcl := cacheListed_eq_false_of_not_mem h
  have hget : getCacheResBody caches env [.vstr name, .vstr key] =
      (.error "not cache res", []) := by
    simp [getCacheResBody, parseArgs, parseArgsLoop, assignArg, gojaString,
      GojaValue.isUndef, hcl]
  have hset : setCacheResBody caches env
      [.vstr name, .vstr key, .vstr value] = (.error "not cache res", []) := by
    simp [setCacheResBody, parseArgs, parseArgsLoop, assignArg, gojaString,
      GojaValue.isUndef, hcl]
  exact ⟨hget, hset, by rw [hget]; rfl, by rw [hset]; rfl⟩

/-- Witness for C3: resource "b" against configured list ["a"]. -/
theorem c3_unlisted_cache_res_witness :
    getCacheResBody ["a"] ⟨fun _ _ => .ok "", fun _ _ _ => none⟩
        [.vstr "b", .vstr "k"] = (.error "not cache res", []) ∧
    setCacheResBody ["a"] ⟨fun _ _ => .ok "", fun _ _ _ => none⟩
        [.vstr "b", .vstr "k", .vstr "v"] = (.error "not cache res", []) := by
  have := c3_unlisted_cache_res ["a"] ⟨fun _ _ => .ok "", fun _ _ _ => none⟩
    "b" "k" "v" (by simp)
  exact ⟨this.1, this.2.1⟩

/-- The script calls `getRoot` and then rewrites its local copy of the
returned value with an arbitrary transformation `f`: the resulting VM state is
the (unchanged) message together with the script's rewritten local value. -/
def getRootThenMutate (msg : MessagePart) (f : GojaValue → GojaValue) :
    MessagePart × GojaValue :=
  (msg, f (asStructuredMut msg))

/-- C6: `getRoot` returns a view of the structured payload; locally mutating
that view leaves the message's payload unchanged; the payload changes exactly
when a value is passed back through `setRoot`. -/
theorem c6_getRoot_view_isolated (msg : MessagePart)
    (f : GojaValue → GojaValue) (v : GojaValue) (h : v.isUndef = false) :
    getRootBody msg = .ok msg.payload ∧
    (getRootThenMutate msg f).1.payload = msg.payload ∧
    (setRootBody msg [v]).2.payload = v ∧
    (setRootBody msg [v]).1 = .ok .vnull := by
  refine ⟨rfl, rfl, ?_, ?_⟩ <;>
    simp [setRootBody, parseArgs, parseArgsLoop, assignArg, h, setStructured]

/-- Witness for C6: a concrete message, the local mutation that replaces the
view with the object `\x7b"a": 1\x7d`, and a `setRoot` of that object. -/
theorem c6_getRoot_view_isolated_witness :
    (getRootThenMutate ⟨.vnull, []⟩
      (fun _ => .vobj [("a", .vint 1)])).1.payload = GojaValue.vnull ∧
    (setRootBody ⟨.vnull, []⟩ [.vobj [("a", .vint 1)]]).2.payload =
      GojaValue.vobj [("a", .vint 1)] := by
  have := c6_getRoot_view_isolated ⟨.vnull, []⟩
    (fun _ => .vobj [("a", .vint 1)]) (.vobj [("a", .vint 1)]) rfl
  exact ⟨this.2.1, this.2.2.1⟩

/-- C7: within one execution, `setMeta(key, "")` deletes the key — a
subsequent `getMeta(key)` fails with "not found" — while `setMeta(key, v)`
with non-empty `v` followed by `getMeta(key)` returns exactly `v`. -/
theorem c7_setMeta_getMeta_roundtrip (msg : MessagePart) (k v : String)
    (hv : v ≠ "") :
    (setMetaBody msg [.vstr k, .vstr ""]).2 = metaDelete msg k ∧
    getMetaBody (setMetaBody msg [.vstr k, .vstr ""]).2 [.vstr k] =
      .error "not found" ∧
    (setFunctionOutcome
      (getMetaBody (setMetaBody msg [.vstr k, .vstr ""]).2
        [.vstr k])).effect = .ret .vnull ∧
    getMetaBody (setMetaBody msg [.vstr k, .vstr v]).2 [.vstr k] =
      .ok (.vstr v) := by
  have hdel : (setMetaBody msg [.vstr k, .vstr ""]).2 = metaDelete msg k := by
    simp [setMetaBody, parseArgs, parseArgsLoop, assignArg, gojaString,
      GojaValue.isUndef]
  have hset : (setMetaBody msg [.vstr k, .vstr v]).2 = metaSetMut msg k v := by
    simp [setMetaBody, parseArgs, parseArgsLoop, assignArg, gojaString,
      GojaValue.isUndef, hv]
  have hnf : getMetaBody (setMetaBody msg [.vstr k, .vstr ""]).2 [.vstr k] =
      .error "not found" := by
    rw [hdel]
    simp [getMetaBody, parseArgs, parseArgsLoop, assignArg, gojaString,
      GojaValue.isUndef, lookup_metaDelete]
  refine ⟨hdel, hnf, by rw [hnf]; rfl, ?_⟩
  · rw [hset]
    simp [getMetaBody, parseArgs, parseArgsLoop, assignArg, gojaString,
      GojaValue.isUndef, lookup_metaSetMut]

/-- Witness for C7: key "x" and value "y" on an empty message. -/
theorem c7_setMeta_getMeta_roundtrip_witness :
    getMetaBody (setMetaBody ⟨.vnull, []⟩ [.vstr "x", .vstr ""]).2
      [.vstr "x"] = .error "not found" ∧
    getMetaBody (setMetaBody ⟨.vnull, []⟩ [.vstr "x", .vstr "y"]).2
      [.vstr "x"] = .ok (.vstr "y") := by
  have := c7_setMeta_getMeta_roundtrip ⟨.vnull, []⟩ "x" "y" (by decide)
  exact ⟨this.2.1, this.2.2.2⟩

/-- C8: `benthos_output` against a name whose (last) index resolves in the
configured `output_res` list sends exactly one single-message-batch
transaction on that sink's channel when the channel accepts it within the
timeout, and fails with "output timeout" (sending nothing) otherwise; every
name in the list resolves; a name not in the list fails with "not output res"
without touching any channel; and without an output stage handle it fails
with "run in processor". -/
theorem c8_benthos_output_contract (stage : OutputStageHandle) (env : SendEnv)
    (name value : String) :
    (∀ i, findLastIdx stage.outputs name = some i →
      stage.outputs.get? i = some name ∧
      benthosOutputBody (some stage) env [.vstr name, .vstr value] =
        (if env.accepts i then
          (.ok .vnull, [(i, { batch := [value], ack := none })])
        else (.error "output timeout", []))) ∧
    (name ∈ stage.outputs → ∃ i, findLastIdx stage.outputs name = some i) ∧
    (name ∉ stage.outputs →
      benthosOutputBody (some stage) env [.vstr name, .vstr value] =
        (.error "not output res", [])) ∧
    benthosOutputBody none env [.vstr name, .vstr value] =
      (.error "run in processor", []) := by
  refine ⟨?_, fun hm => findLastIdx_isSome_of_mem hm, ?_, rfl⟩
  · intro i hi
    refine ⟨findLastIdx_get hi, ?_⟩
    simp [benthosOutputBody, parseArgs, parseArgsLoop, assignArg, gojaString,
      GojaValue.isUndef, hi]
  · intro hm
    have hnone := findLastIdx_none_of_not_mem hm
    simp [benthosOutputBody, parseArgs, parseArgsLoop, assignArg, gojaString,
      GojaValue.isUndef, hnone]

/-- Witness for C8: sink "a" of the configured list ["a"] with an accepting
channel receives the single-message batch; sink "b" fails without any
send. -/
theorem c8_benthos_output_contract_witness :
    benthosOutputBody (some ⟨["a"]⟩) ⟨fun _ => true⟩
        [.vstr "a", .vstr "v"] =
      (.ok .vnull, [(0, { batch := ["v"], ack := none })]) ∧
    benthosOutputBody (some ⟨["a"]⟩) ⟨fun _ => true⟩
        [.vstr "b", .vstr "v"] = (.error "not output res", []) := by
  constructor
  · have := ((c8_benthos_output_contract ⟨["a"]⟩ ⟨fun _ => true⟩ "a" "v").1
      0 rfl).2
    simpa using this
  · exact (c8_benthos_output_contract ⟨["a"]⟩ ⟨fun _ => true⟩ "b" "v").2.2.1
      (by simp)

theorem pairwise_phase_const {l : List ShutEvent} {c : Nat}
    (h : ∀ a ∈ l, ShutEvent.phase a = c) :
    l.Pairwise (fun a b => ShutEvent.phase a ≤ ShutEvent.phase b) := by
  induction l with
  | nil => exact List.Pairwise.nil
  | cons a rest ih =>
    refine List.Pairwise.cons ?_ (ih fun x hx => h x (List.mem_cons_of_mem _ hx))
    intro b hb
    rw [h a (List.mem_cons_self _ _), h b (List.mem_cons_of_mem _ hb)]

theorem phase_const_map_chanClose (n : Nat) :
    ∀ a ∈ (List.range n).map ShutEvent.chanClose, ShutEvent.phase a = 1 := by
  intro a ha
  rcases List.mem_map.mp ha with ⟨x, _, rfl⟩
  rfl

theorem phase_const_map_triggerCloseNow (n : Nat) :
    ∀ a ∈ (List.range n).map ShutEvent.triggerCloseNow,
      ShutEvent.phase a = 2 := by
  intro a ha
  rcases List.mem_map.mp ha with ⟨x, _, rfl⟩
  rfl

theorem phase_const_map_waitForClose (n : Nat) :
    ∀ a ∈ (List.range n).map ShutEvent.waitForClose, ShutEvent.phase a = 3 := by
  intro a ha
  rcases List.mem_map.mp ha with ⟨x, _, rfl⟩
  rfl

/-- C9: whenever the drain wait can complete (pending count zero, or the hard
close-now signal fired — so forced shutdown always terminates the wait), the
shutdown block produces a trace that starts with the completed drain wait,
proceeds in phase order (all channel closes, then all sink force-closes, then
all sink close-confirmation waits), contains every per-sink step, and ends —
only after all of that — with the shutdown signal marked complete. -/
theorem c9_shutdown_ordering (n : Nat) (ackPending : Int) (closeNow : Bool)
    (h : ackPending ≤ 0 ∨ closeNow = true) :
    (shutdownSeq n ackPending closeNow).isSome = true ∧
    ∀ tr, shutdownSeq n ackPending closeNow = some tr →
      tr.head? = some .ackWaitDone ∧
      tr.getLast? = some .shutdownComplete ∧
      tr.Pairwise (fun a b => ShutEvent.phase a ≤ ShutEvent.phase b) ∧
      ∀ i < n, ShutEvent.chanClose i ∈ tr ∧
        ShutEvent.triggerCloseNow i ∈ tr ∧ ShutEvent.waitForClose i ∈ tr := by
  have hdw : drainWait ackPending closeNow = some () := by
    unfold drainWait
    by_cases hp : ackPending ≤ 0
    · rw [if_pos hp]
    · rcases h with h | h
      · exact absurd h hp
      · rw [if_neg hp, if_pos h]
  refine ⟨by simp [shutdownSeq, hdw], ?_⟩
  intro tr htr
  simp only [shutdownSeq, hdw, Option.some.injEq] at htr
  subst htr
  refine ⟨by simp, ?_, ?_, ?_⟩
  · exact List.getLast?_concat _
  · refine List.pairwise_append.mpr ⟨?_, ?_, ?_⟩
    · refine List.pairwise_append.mpr ⟨?_, ?_, ?_⟩
      · refine List.pairwise_append.mpr ⟨?_, ?_, ?_⟩
        · refine List.pairwise_append.mpr ⟨List.pairwise_singleton _ _,
            pairwise_phase_const (phase_const_map_chanClose n), ?_⟩
          intro a ha b hb
          rcases List.mem_singleton.mp ha with rfl
          rw [phase_const_map_chanClose n b hb]
          exact Nat.zero_le 1
        · exact pairwise_phase_const (phase_const_map_triggerCloseNow n)
        · intro a ha b hb
          rw [phase_const_map_triggerCloseNow n b hb]
          rcases List.mem_append.mp ha with ha | ha
          · rcases List.mem_singleton.mp ha with rfl
            exact Nat.zero_le 2
          · rw [phase_const_map_chanClose n a ha]
            omega
      · exact pairwise_phase_const (phase_const_map_waitForClose n)
      · intro a ha b hb
        rw [phase_const_map_waitForClose n b hb]
        rcases List.mem_append.mp ha with ha | ha
        · rcases List.mem_append.mp ha with ha | ha
          · rcases List.mem_singleton.mp ha with rfl
            exact Nat.zero_le 3
          · rw [phase_const_map_chanClose n a ha]
            omega
        · rw [phase_const_map_triggerCloseNow n a ha]
          omega
    · exact List.pairwise_singleton _ _
    · intro a ha b hb
      rcases List.mem_singleton.mp hb with rfl
      show ShutEvent.phase a ≤ 4
      cases a <;> simp [ShutEvent.phase]
  · intro i hi
    refine ⟨?_, ?_, ?_⟩ <;>
      simp [List.mem_append, List.mem_map, List.mem_range, hi]

/-- Witness for C9 at one sink, pending count zero. -/
theorem c9_shutdown_ordering_witness :
    (shutdownSeq 1 0 false).isSome = true :=
  (c9_shutdown_ordering 1 0 false (.inl le_rfl)).1

/-- Every transaction `benthos_output` ever submits carries a nil
acknowledgement callback. -/
theorem benthosOutput_ack_none (j : Option OutputStageHandle) (env : SendEnv)
    (args : List GojaValue) :
    ∀ p ∈ (benthosOutputBody j env args).2, p.2.ack = none := by
  intro p hp
  unfold benthosOutputBody at hp
  cases j with
  | none => simp at hp
  | some stage =>
      cases hpa : parseArgs args [.hstr "", .hstr ""] with
      | error e => simp [hpa] at hp
      | ok ds =>
          simp only [hpa] at hp
          rcases ds with _ | ⟨d1, ds⟩
          · simp at hp
          rcases ds with _ | ⟨d2, ds⟩
          · cases d1 <;> simp at hp
          rcases ds with _ | ⟨d3, ds⟩
          · cases d1 <;> cases d2 <;> (try simp at hp)
            rename_i resName value
            cases hidx : findLastIdx stage.outputs resName with
            | none => simp [hidx] at hp
            | some i =>
                simp only [hidx] at hp
                by_cases hacc : env.accepts i
                · simp only [hacc, if_true, List.mem_singleton] at hp
                  subst hp
                  rfl
                · simp [hacc] at hp
          · cases d1 <;> cases d2 <;> simp at hp

/-- C10: the pending-acknowledgement counter is never incremented — the main
dispatch loop passes it through unchanged (for the loop's entire lifetime)
and forwards no upstream transaction to any sink, every transaction that
`benthos_output` submits carries a nil acknowledgement callback, and the
drain wait on a zero counter is satisfied immediately. -/
theorem c10_ack_counter_never_incremented (inputs : List LoopInput)
    (ackPending : Int) (j : Option OutputStageHandle) (env : SendEnv)
    (args : List GojaValue) (closeNow : Bool) :
    mainLoop inputs ackPending = (ackPending, []) ∧
    (∀ p ∈ (benthosOutputBody j env args).2, p.2.ack = none) ∧
    mainLoop inputs 0 = (0, []) ∧
    drainWait 0 closeNow = some () := by
  have hml : ∀ (l : List LoopInput) (a : Int), mainLoop l a = (a, []) := by
    intro l
    induction l with
    | nil => intro a; rfl
    | cons ev rest ih =>
      intro a
      cases ev with
      | txnArrive t => exact ih a
      | chanClosed => rfl
      | closeNow => rfl
  exact ⟨hml inputs ackPending, benthosOutput_ack_none j env args,
    hml inputs 0, rfl⟩

/-- Witness for C10 at a concrete input stream, a concrete submitted
transaction, and a concrete close flag. -/
theorem c10_ack_counter_never_incremented_witness :
    mainLoop [.txnArrive { batch := ["m"], ack := none }, .chanClosed] 0 =
      (0, []) ∧
    Transaction.ack { batch := ["v"], ack := none } = none := by
  have := c10_ack_counter_never_incremented
    [.txnArrive { batch := ["m"], ack := none }, .chanClosed] 0
    (some ⟨["a"]⟩) ⟨fun _ => true⟩ [.vstr "a", .vstr "v"] false
  exact ⟨this.2.2.1, this.2.1 (0, { batch := ["v"], ack := none })
    (by simp [benthosOutputBody, parseArgs, parseArgsLoop, assignArg,
      gojaString, GojaValue.isUndef, findLastIdx, findLastIdx.go])⟩

end BenthosJS
